import Mathlib

/-!
Shallow embedding of the drinks CRUD service (src/app.py).

The service stores `DrinkService` rows in a relational table and exposes
HTTP handlers over them.  Here the persisted catalog is a `List Drink`
(in store order, primary key ascending as rows are only ever appended
with fresh ids), form/query string parameters are `Option String`
(`none` = parameter absent), and Python's numeric coercions `int(s)` /
`float(s)` on strings are modelled exactly over `ℤ` / `ℚ`.
-/

/-- A persisted row of the `DrinkService` table: integer primary key,
required name, optional description, numeric price, integer duration. -/
structure Drink where
  id : Nat
  name : String
  description : Option String
  price : ℚ
  duration : Int
deriving DecidableEq, Repr

/-- Python truthiness of `request.form.get(k)` / `request.args.get(k)`:
`None` (absent parameter) and the empty string are falsy. -/
def truthy : Option String → Bool
  | none => false
  | some s => s != ""

/-- Whitespace accepted by Python's numeric string conversions. -/
def isPySpace (c : Char) : Bool :=
  c == ' ' || c == '\t' || c == '\n' || c == '\r' || c == '\x0b' || c == '\x0c'

/-- Strip leading and trailing whitespace, as `int()` / `float()` do. -/
def stripWs (cs : List Char) : List Char :=
  ((cs.dropWhile isPySpace).reverse.dropWhile isPySpace).reverse

/-- Numeric value of a decimal digit character. -/
def digitVal (c : Char) : Nat := c.toNat - '0'.toNat

/-- Value of a non-empty all-digit string; `none` otherwise. -/
def digitsNat? (cs : List Char) : Option Nat :=
  if !cs.isEmpty && cs.all (·.isDigit) then
    some (cs.foldl (fun a c => a * 10 + digitVal c) 0)
  else none

/-- Python `int(s)` on a string: optional surrounding whitespace, an
optional sign, then a non-empty run of decimal digits; anything else
(including `"5.5"`, `"abc"`, `""`) raises, modelled as `none`. -/
def pyInt (s : String) : Option Int :=
  match stripWs s.toList with
  | '+' :: rest => (digitsNat? rest).map (fun n => (n : Int))
  | '-' :: rest => (digitsNat? rest).map (fun n => -(n : Int))
  | cs => (digitsNat? cs).map (fun n => (n : Int))

/-- Exponent part after `e`/`E` in a float literal: optional sign and a
non-empty digit run. -/
def expVal? : List Char → Option Int
  | '+' :: rest => (digitsNat? rest).map (fun n => (n : Int))
  | '-' :: rest => (digitsNat? rest).map (fun n => -(n : Int))
  | cs => (digitsNat? cs).map (fun n => (n : Int))

/-- Scaling by a signed power of ten. -/
def qpow10 (e : Int) : ℚ :=
  if 0 ≤ e then (10 : ℚ) ^ e.toNat else 1 / (10 : ℚ) ^ (-e).toNat

/-- Unsigned mantissa of a float literal: digits with an optional single
decimal point, at least one digit overall.  Returns its exact rational
value and the unconsumed remainder. -/
def mantissa? (cs : List Char) : Option (ℚ × List Char) :=
  let ip := cs.takeWhile (·.isDigit)
  let rest := cs.dropWhile (·.isDigit)
  match rest with
  | '.' :: r =>
      let fp := r.takeWhile (·.isDigit)
      let rest2 := r.dropWhile (·.isDigit)
      if ip.isEmpty && fp.isEmpty then none
      else
        some (((ip.foldl (fun a c => a * 10 + digitVal c) 0 : Nat) : ℚ) +
              ((fp.foldl (fun a c => a * 10 + digitVal c) 0 : Nat) : ℚ) /
                (10 : ℚ) ^ fp.length,
              rest2)
  | _ =>
      if ip.isEmpty then none
      else some (((ip.foldl (fun a c => a * 10 + digitVal c) 0 : Nat) : ℚ), rest)

/-- Python `float(s)` on a string: optional surrounding whitespace, an
optional sign, a mantissa, an optional exponent.  The produced value is
modelled exactly over `ℚ` (the claims never depend on binary-float
rounding).  Failures (`""`, `"abc"`, …) are `none`. -/
def pyFloat (s : String) : Option ℚ :=
  let cs := stripWs s.toList
  let sb : ℚ × List Char :=
    match cs with
    | '+' :: r => (1, r)
    | '-' :: r => (-1, r)
    | r => (1, r)
  match mantissa? sb.2 with
  | none => none
  | some (m, rest) =>
      match rest with
      | [] => some (sb.1 * m)
      | 'e' :: r => (expVal? r).map (fun e => sb.1 * m * qpow10 e)
      | 'E' :: r => (expVal? r).map (fun e => sb.1 * m * qpow10 e)
      | _ => none

/-- Does `needle` occur at the head of `hay`? -/
def matchAt : List Char → List Char → Bool
  | [], _ => true
  | _ :: _, [] => false
  | a :: as, b :: bs => a == b && matchAt as bs

/-- Does `needle` occur anywhere in `hay`? -/
def hasSub (needle : List Char) : List Char → Bool
  | [] => needle.isEmpty
  | c :: rest => matchAt needle (c :: rest) || hasSub needle rest

/-- SQL `name ILIKE '%pat%'` as used on the list endpoint:
case-insensitive (ASCII folding, as SQLite's LIKE) substring
containment. -/
def ciContains (pat s : String) : Bool :=
  hasSub (pat.toList.map Char.toLower) (s.toList.map Char.toLower)

/-- Form-encoded body of a write request: the four fields the handlers
read, each possibly absent. -/
structure Form where
  name : Option String
  description : Option String
  price : Option String
  duration : Option String

/-- Query parameters of the list endpoint. -/
structure QueryArgs where
  name : Option String
  min_price : Option String
  max_price : Option String
  min_duration : Option String
  max_duration : Option String

/-- Fresh primary key assigned by the store on insert: one more than the
largest id present (SQLite rowid assignment). -/
def nextId (cat : List Drink) : Nat :=
  (cat.map (·.id)).foldr max 0 + 1

/-- Outcome of a handler, abstracting the HTTP response: `created` = 201
acknowledgment, `badRequest` = 400 with a message, `notFound` = 404,
`noContent` = 204 empty body, `okMsg` = 200 with a message,
`serverError` = an unhandled exception escaping the handler. -/
inductive Resp where
  | created
  | badRequest (msg : String)
  | notFound
  | noContent
  | okMsg (msg : String)
  | serverError
deriving DecidableEq, Repr

/-- POST /drinks (`add_drink`): reject if `name`/`price`/`duration` is
missing or empty, then coerce `price` with `float` and `duration` with
`int` under a try/except that returns 400; on success insert one fresh
row and return 201. -/
def add_drink (f : Form) (cat : List Drink) : Resp × List Drink :=
  if !(truthy f.name && truthy f.price && truthy f.duration) then
    (.badRequest "Missing required fields", cat)
  else
    match pyFloat (f.price.getD ""), pyInt (f.duration.getD "") with
    | some p, some d =>
        (.created, cat ++ [⟨nextId cat, f.name.getD "", f.description, p, d⟩])
    | _, _ => (.badRequest "Invalid data types for price or duration", cat)

/-- DELETE /drinks/{id} (`delete_drink`): 404 if the primary-key lookup
finds nothing, otherwise delete that row and return 204. -/
def delete_drink (drink_id : Nat) (cat : List Drink) : Resp × List Drink :=
  match cat.find? (fun d => d.id == drink_id) with
  | none => (.notFound, cat)
  | some _ => (.noContent, cat.eraseP (fun d => d.id == drink_id))

/-- One name-filter stage of GET /drinks: applied only when the raw
parameter is truthy; never fails. -/
def nameStage (o : Option String) (q : List Drink) : List Drink :=
  if truthy o then q.filter (fun d => ciContains (o.getD "") d.name) else q

/-- One numeric-filter stage of GET /drinks: applied only when the raw
parameter is truthy, in which case the unguarded coercion may raise
(`none`). -/
def numStage {α : Type} (o : Option String) (parse : String → Option α)
    (p : α → Drink → Bool) (q : List Drink) : Option (List Drink) :=
  if truthy o then (parse (o.getD "")).map (fun v => q.filter (p v))
  else some q

/-- GET /drinks (`filter_drinks`): build the query by chaining the five
optional filters in source order; any raising coercion aborts the whole
request (`none`), otherwise return the matching rows in store order. -/
def filter_drinks (a : QueryArgs) (cat : List Drink) : Option (List Drink) :=
  (numStage a.min_price pyFloat (fun v d => decide (v ≤ d.price))
      (nameStage a.name cat)).bind fun q =>
  (numStage a.max_price pyFloat (fun v d => decide (d.price ≤ v)) q).bind fun q =>
  (numStage a.min_duration pyInt (fun v d => decide (v ≤ d.duration)) q).bind fun q =>
  numStage a.max_duration pyInt (fun v d => decide (d.duration ≤ v)) q

/-- PATCH /drinks/{id} (`increase_price`): 404 if the lookup fails;
otherwise `int(request.form.get('price'))` is evaluated unguarded —
an absent field (`int(None)`, TypeError) or a non-integer string
(ValueError) escapes the handler before any assignment or commit —
and on success the row's price is replaced and 200 returned. -/
def increase_price (drink_id : Nat) (f : Form) (cat : List Drink) :
    Resp × List Drink :=
  match cat.find? (fun d => d.id == drink_id) with
  | none => (.notFound, cat)
  | some _ =>
      match f.price with
      | none => (.serverError, cat)
      | some s =>
          match pyInt s with
          | none => (.serverError, cat)
          | some v =>
              (.okMsg "Price updated successfully",
               cat.map (fun d =>
                 if d.id == drink_id then { d with price := (v : ℚ) } else d))

/-- PUT /drinks/{id} (`update_drink`): 404 if the lookup fails; then each
of `name`, `description`, `price`, `duration` is applied to the fetched
row only if present in the form, with guarded coercions for `price`
(`float`) and `duration` (`int`) returning 400 before the commit — so a
coercion failure leaves the persisted catalog untouched even though
earlier fields were already set on the in-memory object.  The single
commit at the end persists the updated row. -/
def update_drink (drink_id : Nat) (f : Form) (cat : List Drink) :
    Resp × List Drink :=
  match cat.find? (fun d => d.id == drink_id) with
  | none => (.notFound, cat)
  | some d0 =>
      let d1 := match f.name with
        | some n => { d0 with name := n }
        | none => d0
      let d2 := match f.description with
        | some s => { d1 with description := some s }
        | none => d1
      match (match f.price with
             | some s => (pyFloat s).map (fun p => { d2 with price := p })
             | none => some d2) with
      | none => (.badRequest "Invalid data type for price", cat)
      | some d3 =>
          match (match f.duration with
                 | some s => (pyInt s).map (fun v => { d3 with duration := v })
                 | none => some d3) with
          | none => (.badRequest "Invalid data type for duration", cat)
          | some d4 =>
              (.okMsg "Drink updated successfully",
               cat.map (fun e => if e.id == drink_id then d4 else e))

/-- SQL `max(duration)` over the catalog; `NULL` (`none`) when empty. -/
def maxDur? (cat : List Drink) : Option Int :=
  match cat with
  | [] => none
  | d :: rest => some (rest.foldl (fun m e => max m e.duration) d.duration)

/-- GET /drinks/max_duration (`get_max_duration`): compute the scalar
maximum, then fetch the first row whose duration equals it; on an empty
catalog the scalar is `NULL`, the equality filter matches nothing, and
the "no drinks" message (`none` here) is returned. -/
def get_max_duration (cat : List Drink) : Option (Int × String) :=
  match maxDur? cat with
  | none => none
  | some m =>
      match cat.find? (fun d => d.duration == m) with
      | none => none
      | some d => some (m, d.name)

/-- The "Tea" row of the spec's three-drink example catalog. -/
def tea : Drink := ⟨1, "Tea", none, 5, 3⟩

/-- The "Coffee" row of the spec's three-drink example catalog. -/
def coffee : Drink := ⟨2, "Coffee", none, 8, 5⟩

/-- The "Cocoa" row of the spec's three-drink example catalog. -/
def cocoa : Drink := ⟨3, "Cocoa", none, 5, 10⟩

/-- The spec's example catalog {("Tea",5,3),("Coffee",8,5),("Cocoa",5,10)}. -/
def cat3 : List Drink := [tea, coffee, cocoa]

theorem truthy_none : truthy none = false := rfl

theorem pyFloat_empty : pyFloat "" = none := rfl

theorem pyInt_empty : pyInt "" = none := rfl

theorem le_foldr_max (l : List Nat) (x : Nat) (hx : x ∈ l) :
    x ≤ l.foldr max 0 := by
  induction l with
  | nil => cases hx
  | cons a t ih =>
      rcases List.mem_cons.1 hx with h | h
      · subst h; exact le_max_left _ _
      · exact le_trans (ih h) (le_max_right _ _)

theorem nextId_fresh (cat : List Drink) : ∀ e ∈ cat, e.id ≠ nextId cat := by
  intro e he h
  have hle : e.id ≤ (cat.map (·.id)).foldr max 0 :=
    le_foldr_max _ _ (List.mem_map_of_mem _ he)
  rw [nextId] at h
  omega

theorem numStage_eq_none {α : Type} (o : Option String)
    (parse : String → Option α) (p : α → Drink → Bool) (q : List Drink)
    (ht : truthy o = true) (hp : parse (o.getD "") = none) :
    numStage o parse p q = none := by
  simp [numStage, ht, hp]

theorem numStage_mem {α : Type} {o : Option String}
    {parse : String → Option α} {p : α → Drink → Bool} {q q' : List Drink}
    (h : numStage o parse p q = some q') (d : Drink) :
    d ∈ q' ↔ d ∈ q ∧
      (∀ v, truthy o = true → parse (o.getD "") = some v → p v d = true) := by
  by_cases ht : truthy o
  · rw [numStage, if_pos ht] at h
    cases hp : parse (o.getD "") with
    | none => rw [hp] at h; cases h
    | some v =>
        rw [hp] at h
        have hq : q' = q.filter (p v) := (Option.some.inj h).symm
        subst hq
        rw [List.mem_filter]
        constructor
        · rintro ⟨hm, hpd⟩
          exact ⟨hm, fun v' _ hv' => (Option.some.inj hv') ▸ hpd⟩
        · rintro ⟨hm, hall⟩
          exact ⟨hm, hall v ht rfl⟩
  · rw [numStage, if_neg ht] at h
    have hq : q' = q := (Option.some.inj h).symm
    subst hq
    simp [ht]

theorem nameStage_mem (o : Option String) (q : List Drink) (d : Drink) :
    d ∈ nameStage o q ↔ d ∈ q ∧
      (truthy o = true → ciContains (o.getD "") d.name = true) := by
  by_cases ht : truthy o <;> simp [nameStage, ht, List.mem_filter]

theorem filter_drinks_mem {a : QueryArgs} {cat l : List Drink}
    (h : filter_drinks a cat = some l) (d : Drink) :
    d ∈ l ↔ d ∈ cat
      ∧ (truthy a.name = true → ciContains (a.name.getD "") d.name = true)
      ∧ (∀ v, truthy a.min_price = true →
          pyFloat (a.min_price.getD "") = some v → v ≤ d.price)
      ∧ (∀ v, truthy a.max_price = true →
          pyFloat (a.max_price.getD "") = some v → d.price ≤ v)
      ∧ (∀ v, truthy a.min_duration = true →
          pyInt (a.min_duration.getD "") = some v → v ≤ d.duration)
      ∧ (∀ v, truthy a.max_duration = true →
          pyInt (a.max_duration.getD "") = some v → d.duration ≤ v) := by
  rw [filter_drinks] at h
  cases h1 : numStage a.min_price pyFloat (fun v d => decide (v ≤ d.price))
      (nameStage a.name cat) with
  | none => rw [h1] at h; cases h
  | some q1 =>
      rw [h1, Option.some_bind] at h
      cases h2 : numStage a.max_price pyFloat (fun v d => decide (d.price ≤ v)) q1 with
      | none => rw [h2] at h; cases h
      | some q2 =>
          rw [h2, Option.some_bind] at h
          cases h3 : numStage a.min_duration pyInt
              (fun v d => decide (v ≤ d.duration)) q2 with
          | none => rw [h3] at h; cases h
          | some q3 =>
              rw [h3, Option.some_bind] at h
              have m0 := nameStage_mem a.name cat d
              have m1 := numStage_mem h1 d
              have m2 := numStage_mem h2 d
              have m3 := numStage_mem h3 d
              have m4 := numStage_mem h d
              simp only [decide_eq_true_eq] at m1 m2 m3 m4
              rw [m4, m3, m2, m1, m0]
              tauto

theorem pyFloat_five : pyFloat "5" = some 5 := by
  have h : pyFloat "5" = some (1 * ((5 : Nat) : ℚ)) := rfl
  rw [h]; norm_num

/-- C1: List/Filter applies the provided filters conjunctively — a drink
is returned iff it satisfies every supplied filter, with `name` a
case-insensitive substring match and the numeric bounds inclusive; an
empty catalog yields an empty sequence, and over the spec's example
catalog, `min_price=5&max_price=5` returns exactly Tea and Cocoa while
`name=co` returns exactly Coffee and Cocoa (each with all five
fields). -/
theorem filter_conjunctive_spec (a : QueryArgs) (cat l : List Drink)
    (h : filter_drinks a cat = some l) :
    (∀ d, d ∈ l ↔ d ∈ cat
      ∧ (truthy a.name = true → ciContains (a.name.getD "") d.name = true)
      ∧ (∀ v, truthy a.min_price = true →
          pyFloat (a.min_price.getD "") = some v → v ≤ d.price)
      ∧ (∀ v, truthy a.max_price = true →
          pyFloat (a.max_price.getD "") = some v → d.price ≤ v)
      ∧ (∀ v, truthy a.min_duration = true →
          pyInt (a.min_duration.getD "") = some v → v ≤ d.duration)
      ∧ (∀ v, truthy a.max_duration = true →
          pyInt (a.max_duration.getD "") = some v → d.duration ≤ v)) ∧
    filter_drinks ⟨none, none, none, none, none⟩ ([] : List Drink) = some [] ∧
    filter_drinks ⟨none, some "5", some "5", none, none⟩ cat3 = some [tea, cocoa] ∧
    filter_drinks ⟨some "co", none, none, none, none⟩ cat3 = some [coffee, cocoa] := by
  refine ⟨filter_drinks_mem h, rfl, ?_, ?_⟩
  · have ht : truthy (some "5") = true := rfl
    have ha : decide ((5 : ℚ) ≤ (5 : ℚ)) = true := rfl
    have hb : decide ((5 : ℚ) ≤ (8 : ℚ)) = true := rfl
    have hc : decide ((8 : ℚ) ≤ (5 : ℚ)) = false := rfl
    simp [filter_drinks, numStage, nameStage, truthy_none, ht, pyFloat_five, cat3,
      tea, coffee, cocoa, ha, hb, hc]
  · have h1 : ciContains "co" "Tea" = false := rfl
    have h2 : ciContains "co" "Coffee" = true := rfl
    have h3 : ciContains "co" "Cocoa" = true := rfl
    have ht : truthy (some "co") = true := rfl
    simp [filter_drinks, numStage, nameStage, truthy_none, ht, h1, h2, h3, cat3,
      tea, coffee, cocoa]

theorem filter_conjunctive_spec_witness :
    filter_drinks ⟨none, some "5", some "5", none, none⟩ cat3 = some [tea, cocoa] :=
  (filter_conjunctive_spec ⟨none, none, none, none, none⟩ [] [] rfl).2.2.1

/-- C7: each numeric filter parameter of List/Filter is applied only if
supplied and parsing; a supplied non-numeric value makes the whole
operation fail with an unguarded parse error (`none`), unlike the
guarded coercion on the write path, which returns a structured 400 and
leaves the catalog unchanged. -/
theorem filter_unguarded_parse (a : QueryArgs) (cat : List Drink)
    (h : (truthy a.min_price = true ∧ pyFloat (a.min_price.getD "") = none)
       ∨ (truthy a.max_price = true ∧ pyFloat (a.max_price.getD "") = none)
       ∨ (truthy a.min_duration = true ∧ pyInt (a.min_duration.getD "") = none)
       ∨ (truthy a.max_duration = true ∧ pyInt (a.max_duration.getD "") = none)) :
    filter_drinks a cat = none ∧
    (∀ (f : Form) (c : List Drink) (s : String), f.price = some s →
      truthy f.name = true → truthy f.price = true → truthy f.duration = true →
      pyFloat s = none →
      add_drink f c = (.badRequest "Invalid data types for price or duration", c)) := by
  constructor
  · rw [filter_drinks]
    rcases h with ⟨ht, hp⟩ | ⟨ht, hp⟩ | ⟨ht, hp⟩ | ⟨ht, hp⟩
    · rw [numStage_eq_none _ _ _ _ ht hp]; rfl
    · cases h1 : numStage a.min_price pyFloat (fun v d => decide (v ≤ d.price))
          (nameStage a.name cat) with
      | none => rfl
      | some q1 => rw [Option.some_bind, numStage_eq_none _ _ _ _ ht hp]; rfl
    · cases h1 : numStage a.min_price pyFloat (fun v d => decide (v ≤ d.price))
          (nameStage a.name cat) with
      | none => rfl
      | some q1 =>
          rw [Option.some_bind]
          cases h2 : numStage a.max_price pyFloat
              (fun v d => decide (d.price ≤ v)) q1 with
          | none => rfl
          | some q2 =>
              rw [Option.some_bind, numStage_eq_none _ _ _ _ ht hp]; rfl
    · cases h1 : numStage a.min_price pyFloat (fun v d => decide (v ≤ d.price))
          (nameStage a.name cat) with
      | none => rfl
      | some q1 =>
          rw [Option.some_bind]
          cases h2 : numStage a.max_price pyFloat
              (fun v d => decide (d.price ≤ v)) q1 with
          | none => rfl
          | some q2 =>
              rw [Option.some_bind]
              cases h3 : numStage a.min_duration pyInt
                  (fun v d => decide (v ≤ d.duration)) q2 with
              | none => rfl
              | some q3 =>
                  rw [Option.some_bind]
                  exact numStage_eq_none _ _ _ _ ht hp
  · intro f c s hs htn htp htd hpf
    rw [add_drink, htn, htp, htd]
    simp only [Bool.and_self, Bool.not_true, Bool.false_eq_true, if_false]
    rw [hs]
    simp [hpf]

theorem filter_unguarded_parse_witness :
    filter_drinks ⟨none, some "abc", none, none, none⟩ cat3 = none :=
  (filter_unguarded_parse ⟨none, some "abc", none, none, none⟩ cat3
    (Or.inl ⟨rfl, rfl⟩)).1

/-- C10: a filter parameter supplied with an empty-string value is
treated exactly as if it were absent — applicability is decided by the
truthiness of the raw string, so the result is identical to omitting
the parameter and no parse failure occurs. -/
theorem filter_empty_param_ignored (cat : List Drink)
    (n mp xp mdu xdu : Option String) :
    filter_drinks ⟨some "", mp, xp, mdu, xdu⟩ cat
      = filter_drinks ⟨none, mp, xp, mdu, xdu⟩ cat ∧
    filter_drinks ⟨n, some "", xp, mdu, xdu⟩ cat
      = filter_drinks ⟨n, none, xp, mdu, xdu⟩ cat ∧
    filter_drinks ⟨n, mp, some "", mdu, xdu⟩ cat
      = filter_drinks ⟨n, mp, none, mdu, xdu⟩ cat ∧
    filter_drinks ⟨n, mp, xp, some "", xdu⟩ cat
      = filter_drinks ⟨n, mp, xp, none, xdu⟩ cat ∧
    filter_drinks ⟨n, mp, xp, mdu, some ""⟩ cat
      = filter_drinks ⟨n, mp, xp, mdu, none⟩ cat := by
  have hte : truthy (some "") = false := rfl
  refine ⟨?_, ?_, ?_, ?_, ?_⟩ <;>
    simp [filter_drinks, numStage, nameStage, hte, truthy_none]

theorem pyFloat_some_ne_empty {s : String} {p : ℚ} (h : pyFloat s = some p) :
    s ≠ "" := by
  intro he; subst he; rw [pyFloat_empty] at h; cases h

theorem pyInt_some_ne_empty {s : String} {v : Int} (h : pyInt s = some v) :
    s ≠ "" := by
  intro he; subst he; rw [pyInt_empty] at h; cases h

/-- C4: Create returns a 400 validation error whenever `name`, `price`,
or `duration` is missing or whenever a present `price`/`duration` fails
its numeric coercion, and in every such case the catalog is unchanged;
when all constraints hold, exactly one new Drink with a fresh unique id
is appended and a bare success acknowledgment (201) is returned. -/
theorem add_drink_validation (f : Form) (cat : List Drink) :
    ((f.name = none ∨ f.price = none ∨ f.duration = none) →
        ∃ m, add_drink f cat = (.badRequest m, cat)) ∧
    (((∃ s, f.price = some s ∧ pyFloat s = none) ∨
      (∃ s, f.duration = some s ∧ pyInt s = none)) →
        ∃ m, add_drink f cat = (.badRequest m, cat)) ∧
    (∀ n ps ds p dv, f.name = some n → n ≠ "" → f.price = some ps →
      f.duration = some ds → pyFloat ps = some p → pyInt ds = some dv →
      add_drink f cat =
        (.created, cat ++ [⟨nextId cat, n, f.description, p, dv⟩]) ∧
      ∀ e ∈ cat, e.id ≠ nextId cat) := by
  refine ⟨?_, ?_, ?_⟩
  · intro h
    rcases h with h | h | h <;>
      exact ⟨"Missing required fields", by simp [add_drink, truthy, h]⟩
  · intro h
    by_cases hc : (truthy f.name && truthy f.price && truthy f.duration) = true
    · rw [add_drink, hc]
      simp only [Bool.not_true, Bool.false_eq_true, if_false]
      rcases h with ⟨s, hs, hps⟩ | ⟨s, hs, hps⟩
      · rw [hs]
        simp [hps]
      · rw [hs]
        cases hpf : pyFloat (f.price.getD "") <;> simp [hps]
    · refine ⟨"Missing required fields", ?_⟩
      rw [add_drink]
      simp only [Bool.not_eq_true] at hc
      rw [hc]
      rfl
  · intro n ps ds p dv hn hne hps hds hp hd
    have htn : truthy f.name = true := by
      rw [hn]; simpa [truthy] using hne
    have htp : truthy f.price = true := by
      rw [hps]; simpa [truthy] using pyFloat_some_ne_empty hp
    have htd : truthy f.duration = true := by
      rw [hds]; simpa [truthy] using pyInt_some_ne_empty hd
    constructor
    · rw [add_drink, htn, htp, htd]
      simp only [Bool.and_self, Bool.not_true, Bool.false_eq_true, if_false]
      rw [hps, hds]
      simp only [Option.getD_some]
      rw [hp, hd, hn]
      rfl
    · exact nextId_fresh cat

theorem add_drink_validation_witness :
    add_drink ⟨some "x", none, some "5", some "3"⟩ [] =
      (.created, [⟨1, "x", none, (5 : ℚ), 3⟩]) :=
  ((add_drink_validation ⟨some "x", none, some "5", some "3"⟩ []).2.2
    "x" "5" "3" 5 3 rfl (by decide) rfl rfl pyFloat_five rfl).1

theorem eraseP_id_filter (i : Nat) :
    ∀ (cat : List Drink), (cat.map (fun d => d.id)).Nodup →
      cat.eraseP (fun d => d.id == i) = cat.filter (fun d => !(d.id == i))
  | [], _ => rfl
  | d :: rest, hnd => by
      rw [List.map_cons, List.nodup_cons] at hnd
      by_cases hd : (d.id == i) = true
      · have h1 : List.eraseP (fun d => d.id == i) (d :: rest) = rest := by
          simp [List.eraseP_cons, hd]
        have h2 : List.filter (fun d => !(d.id == i)) (d :: rest)
            = List.filter (fun d => !(d.id == i)) rest := by
          simp [List.filter_cons, hd]
        rw [h1, h2]
        have hall : ∀ e ∈ rest, (!(e.id == i)) = true := by
          intro e he
          have hne : e.id ≠ d.id := by
            intro hme
            exact hnd.1 (hme ▸ List.mem_map_of_mem (fun d => d.id) he)
          have hdi : d.id = i := by simpa using hd
          simp [hdi ▸ hne]
        exact (List.filter_eq_self.2 hall).symm
      · have h1 : List.eraseP (fun d => d.id == i) (d :: rest)
            = d :: List.eraseP (fun d => d.id == i) rest := by
          simp [List.eraseP_cons, hd]
        have h2 : List.filter (fun d => !(d.id == i)) (d :: rest)
            = d :: List.filter (fun d => !(d.id == i)) rest := by
          simp [List.filter_cons, hd]
        rw [h1, h2, eraseP_id_filter i rest hnd.2]

/-- C5: Delete on an id with no matching Drink returns not-found and
leaves the catalog unchanged; Delete on an existing id removes exactly
that Drink (a subsequent lookup finds nothing and every other Drink is
kept unchanged) and returns an empty 204 acknowledgment. -/
theorem delete_spec (drink_id : Nat) (cat : List Drink)
    (hnd : (cat.map (fun d => d.id)).Nodup) :
    (cat.find? (fun d => d.id == drink_id) = none →
        delete_drink drink_id cat = (.notFound, cat)) ∧
    (∀ d, cat.find? (fun d => d.id == drink_id) = some d →
      (delete_drink drink_id cat).1 = .noContent ∧
      (delete_drink drink_id cat).2.find? (fun e => e.id == drink_id) = none ∧
      (∀ e, e ∈ (delete_drink drink_id cat).2 ↔ e ∈ cat ∧ e.id ≠ drink_id)) := by
  constructor
  · intro h
    rw [delete_drink, h]
  · intro d hd
    rw [delete_drink, hd]
    refine ⟨rfl, ?_, ?_⟩
    · rw [eraseP_id_filter drink_id cat hnd]
      rw [List.find?_eq_none]
      intro e he
      have := (List.mem_filter.1 he).2
      simpa using this
    · intro e
      rw [eraseP_id_filter drink_id cat hnd, List.mem_filter]
      simp

theorem delete_spec_witness :
    (delete_drink 2 cat3).1 = .noContent ∧
    (delete_drink 2 cat3).2.find? (fun e => e.id == 2) = none ∧
    (∀ e, e ∈ (delete_drink 2 cat3).2 ↔ e ∈ cat3 ∧ e.id ≠ 2) :=
  (delete_spec 2 cat3 (by decide)).2 coffee rfl

/-- C2: an UpdateFull (PUT) call on an existing id whose present
`price` or `duration` fails numeric coercion returns a 400 validation
error, and the persisted catalog is completely unchanged — the failing
coercion is reached before any commit, so fields already applied to the
in-memory object are never persisted. -/
theorem update_validation_no_commit (drink_id : Nat) (f : Form)
    (cat : List Drink) (d : Drink)
    (hfind : cat.find? (fun e => e.id == drink_id) = some d)
    (hbad : (∃ s, f.price = some s ∧ pyFloat s = none) ∨
            (∃ s, f.duration = some s ∧ pyInt s = none)) :
    (∃ m, (update_drink drink_id f cat).1 = .badRequest m) ∧
    (update_drink drink_id f cat).2 = cat := by
  rw [update_drink, hfind]
  rcases hbad with ⟨s, hs, hps⟩ | ⟨s, hs, hps⟩
  · rw [hs]
    simp [hps]
  · rw [hs]
    cases hfp : f.price with
    | none => simp [hps]
    | some s' =>
        cases hpf : pyFloat s' with
        | none => simp [hpf]
        | some p => simp [hpf, hps]

theorem update_validation_no_commit_witness :
    (∃ m, (update_drink 1 ⟨none, some "strong", some "abc", none⟩ cat3).1
        = .badRequest m) ∧
    (update_drink 1 ⟨none, some "strong", some "abc", none⟩ cat3).2 = cat3 :=
  update_validation_no_commit 1 ⟨none, some "strong", some "abc", none⟩ cat3 tea
    rfl (Or.inl ⟨"abc", rfl, rfl⟩)

/-- C6: a successful UpdateFull (PUT) on an existing Drink replaces each
of `name`, `description`, `price`, `duration` only if that field is
present in the request, and every absent field keeps its prior stored
value; only the addressed row is rewritten. -/
theorem update_selective_frame (drink_id : Nat) (f : Form) (cat : List Drink)
    (d : Drink) (hfind : cat.find? (fun e => e.id == drink_id) = some d)
    (hp : ∀ s, f.price = some s → ∃ p, pyFloat s = some p)
    (hd : ∀ s, f.duration = some s → ∃ v, pyInt s = some v) :
    ∃ d', update_drink drink_id f cat =
        (.okMsg "Drink updated successfully",
         cat.map (fun e => if e.id == drink_id then d' else e)) ∧
      d'.id = d.id ∧
      (∀ n, f.name = some n → d'.name = n) ∧
      (f.name = none → d'.name = d.name) ∧
      (∀ s, f.description = some s → d'.description = some s) ∧
      (f.description = none → d'.description = d.description) ∧
      (∀ s p, f.price = some s → pyFloat s = some p → d'.price = p) ∧
      (f.price = none → d'.price = d.price) ∧
      (∀ s v, f.duration = some s → pyInt s = some v → d'.duration = v) ∧
      (f.duration = none → d'.duration = d.duration) := by
  rw [update_drink, hfind]
  cases hfp : f.price with
  | none =>
      cases hfd : f.duration with
      | none =>
          refine ⟨_, rfl, ?_, ?_, ?_, ?_, ?_, ?_, ?_, ?_, ?_⟩ <;>
            cases hfn : f.name <;> cases hfds : f.description <;>
              simp [hfn, hfds, hfp, hfd]
      | some sd =>
          obtain ⟨v, hv⟩ := hd sd hfd
          simp only [hv, Option.map_some']
          refine ⟨_, rfl, ?_, ?_, ?_, ?_, ?_, ?_, ?_, ?_, ?_⟩ <;>
            cases hfn : f.name <;> cases hfds : f.description <;>
              simp [hfn, hfds, hfp, hfd, hv] <;>
                (rintro s1 v1 rfl hv1
                 rw [hv] at hv1
                 exact Option.some.inj hv1)
  | some sp =>
      obtain ⟨p, hpv⟩ := hp sp hfp
      cases hfd : f.duration with
      | none =>
          simp only [hpv, Option.map_some']
          refine ⟨_, rfl, ?_, ?_, ?_, ?_, ?_, ?_, ?_, ?_, ?_⟩ <;>
            cases hfn : f.name <;> cases hfds : f.description <;>
              simp [hfn, hfds, hfp, hfd, hpv] <;>
                (rintro s1 v1 rfl hv1
                 rw [hpv] at hv1
                 exact Option.some.inj hv1)
      | some sd =>
          obtain ⟨v, hv⟩ := hd sd hfd
          simp only [hpv, hv, Option.map_some']
          refine ⟨_, rfl, ?_, ?_, ?_, ?_, ?_, ?_, ?_, ?_, ?_⟩ <;>
            cases hfn : f.name <;> cases hfds : f.description <;>
              simp [hfn, hfds, hfp, hfd, hpv, hv] <;>
                (rintro s1 v1 rfl hv1
                 first
                   | rw [hv] at hv1
                   | rw [hpv] at hv1
                 exact Option.some.inj hv1)

theorem update_selective_frame_witness :
    ∃ d', update_drink 1 ⟨none, some "leafy", none, none⟩ cat3 =
        (.okMsg "Drink updated successfully",
         cat3.map (fun e => if e.id == 1 then d' else e)) ∧
      d'.name = tea.name ∧ d'.price = tea.price ∧ d'.duration = tea.duration ∧
      d'.description = some "leafy" := by
  obtain ⟨d', h1, h2, h3, h4, h5, h6, h7, h8, h9, h10⟩ :=
    update_selective_frame 1 ⟨none, some "leafy", none, none⟩ cat3 tea rfl
      (fun s h => by cases h) (fun s h => by cases h)
  exact ⟨d', h1, h4 rfl, h8 rfl, h10 rfl, h5 "leafy" rfl⟩

/-- C3: UpdatePrice (PATCH) on a non-existent id returns not-found and
leaves the catalog unchanged; on an existing id with a supplied,
integer-coercible `price` it replaces exactly that Drink's price with
the coerced value (all other fields and all other Drinks untouched) and
returns a success acknowledgment. -/
theorem patch_price_spec (drink_id : Nat) (f : Form) (cat : List Drink) :
    (cat.find? (fun d => d.id == drink_id) = none →
        increase_price drink_id f cat = (.notFound, cat)) ∧
    (∀ d s v, cat.find? (fun d => d.id == drink_id) = some d →
      f.price = some s → pyInt s = some v →
      ∃ l, increase_price drink_id f cat =
          (.okMsg "Price updated successfully", l) ∧
        ∃ hlen : l.length = cat.length,
        ∀ i : Fin cat.length,
          (l.get (Fin.cast hlen.symm i)).id = (cat.get i).id ∧
          (l.get (Fin.cast hlen.symm i)).name = (cat.get i).name ∧
          (l.get (Fin.cast hlen.symm i)).description
            = (cat.get i).description ∧
          (l.get (Fin.cast hlen.symm i)).duration = (cat.get i).duration ∧
          (l.get (Fin.cast hlen.symm i)).price
            = (if (cat.get i).id = drink_id then (v : ℚ)
               else (cat.get i).price)) := by
  constructor
  · intro h
    rw [increase_price, h]
  · intro d s v hfind hs hv
    rw [increase_price, hfind, hs]
    simp only [hv]
    refine ⟨_, rfl, List.length_map _ _, ?_⟩
    intro i
    have hg : (List.map (fun e =>
        if e.id == drink_id then { e with price := (v : ℚ) } else e) cat).get
          (Fin.cast (List.length_map _ _).symm i)
        = (fun e => if e.id == drink_id then { e with price := (v : ℚ) }
            else e) (cat.get i) := by
      rw [List.get_eq_getElem, List.get_eq_getElem]
      simp [List.getElem_map]
    rw [hg]
    generalize cat.get i = e
    by_cases he : e.id = drink_id <;> simp [he]

theorem patch_price_spec_witness :
    increase_price 99 ⟨none, none, some "7", none⟩ cat3 = (.notFound, cat3) :=
  (patch_price_spec 99 ⟨none, none, some "7", none⟩ cat3).1 rfl

/-- C9: UpdatePrice (PATCH) on an existing id coerces the supplied
`price` with an unguarded `int(...)`: an absent `price` field or a
non-integer-literal string makes the handler raise (an unstructured
server failure rather than a 400), and the persisted catalog is
unchanged in that case. -/
theorem patch_unguarded_int (drink_id : Nat) (f : Form) (cat : List Drink)
    (d : Drink) (hfind : cat.find? (fun e => e.id == drink_id) = some d)
    (hbad : f.price = none ∨ ∃ s, f.price = some s ∧ pyInt s = none) :
    increase_price drink_id f cat = (.serverError, cat) := by
  rw [increase_price, hfind]
  rcases hbad with h | ⟨s, hs, hps⟩
  · simp only [h]
  · simp only [hs, hps]

theorem patch_unguarded_int_witness :
    increase_price 1 ⟨none, none, some "5.5", none⟩ cat3
      = (.serverError, cat3) :=
  patch_unguarded_int 1 ⟨none, none, some "5.5", none⟩ cat3 tea rfl
    (Or.inr ⟨"5.5", rfl, rfl⟩)

theorem foldl_max_le_self (l : List Drink) (a : Int) :
    a ≤ l.foldl (fun m e => max m e.duration) a := by
  induction l generalizing a with
  | nil => exact le_refl _
  | cons x t ih => exact le_trans (le_max_left _ _) (ih (max a x.duration))

theorem foldl_max_mem_le (l : List Drink) (e : Drink) (he : e ∈ l) :
    ∀ a : Int, e.duration ≤ l.foldl (fun m e => max m e.duration) a := by
  induction l with
  | nil => cases he
  | cons x t ih =>
      intro a
      rcases List.mem_cons.1 he with h | h
      · subst h
        exact le_trans (le_max_right _ _) (foldl_max_le_self t _)
      · exact ih h _

theorem foldl_max_eq_or (l : List Drink) :
    ∀ a : Int, l.foldl (fun m e => max m e.duration) a = a ∨
      ∃ e ∈ l, l.foldl (fun m e => max m e.duration) a = e.duration := by
  induction l with
  | nil => exact fun a => Or.inl rfl
  | cons x t ih =>
      intro a
      rcases ih (max a x.duration) with h | ⟨e, he, hh⟩
      · rcases max_choice a x.duration with hm | hm
        · exact Or.inl (by rw [List.foldl_cons, h, hm])
        · exact Or.inr ⟨x, List.mem_cons_self x t, by rw [List.foldl_cons, h, hm]⟩
      · exact Or.inr ⟨e, List.mem_cons_of_mem x he, hh⟩

theorem find?_first {α : Type} (p : α → Bool) :
    ∀ (l : List α) (b : α), l.find? p = some b →
      p b = true ∧ ∃ l1 l2, l = l1 ++ b :: l2 ∧ ∀ x ∈ l1, p x = false
  | [], b => by intro h; cases h
  | a :: t, b => by
      intro h
      by_cases ha : p a
      · rw [List.find?_cons_of_pos t ha] at h
        obtain rfl := Option.some.inj h
        exact ⟨ha, [], t, rfl, by simp⟩
      · rw [List.find?_cons_of_neg t ha] at h
        obtain ⟨hb, l1, l2, hsplit, hall⟩ := find?_first p t b h
        refine ⟨hb, a :: l1, l2, by rw [hsplit]; rfl, ?_⟩
        intro x hx
        rcases List.mem_cons.1 hx with hxa | hxl
        · subst hxa; simpa using ha
        · exact hall x hxl

/-- C8: MaxDuration on a non-empty catalog returns the maximum duration
over all Drinks together with the name of the first Drink (store
pick-first order) achieving it, and on an empty catalog returns the
"no drinks" indicator; on {("A",10), ("B",20)} it returns 20 and
"B". -/
theorem max_duration_spec (cat : List Drink) (h : cat ≠ []) :
    (∃ m n, get_max_duration cat = some (m, n) ∧
      (∀ e ∈ cat, e.duration ≤ m) ∧
      (∃ l1 d l2, cat = l1 ++ d :: l2 ∧ d.duration = m ∧ d.name = n ∧
        ∀ e ∈ l1, e.duration ≠ m)) ∧
    get_max_duration ([] : List Drink) = none ∧
    get_max_duration [⟨1, "A", none, 2, 10⟩, ⟨2, "B", none, 3, 20⟩]
      = some (20, "B") := by
  refine ⟨?_, rfl, by decide⟩
  obtain ⟨c, rest, rfl⟩ : ∃ c rest, cat = c :: rest := by
    cases cat with
    | nil => exact absurd rfl h
    | cons c rest => exact ⟨c, rest, rfl⟩
  set m := rest.foldl (fun m e => max m e.duration) c.duration with hm
  have hub : ∀ e ∈ c :: rest, e.duration ≤ m := by
    intro e he
    rcases List.mem_cons.1 he with rfl | he
    · exact foldl_max_le_self rest e.duration
    · exact foldl_max_mem_le rest e he c.duration
  have hex : ∃ e ∈ c :: rest, e.duration = m := by
    rcases foldl_max_eq_or rest c.duration with he | ⟨e, he, hh⟩
    · exact ⟨c, List.mem_cons_self c rest, he.symm⟩
    · exact ⟨e, List.mem_cons_of_mem c he, hh.symm⟩
  have hfind : ((c :: rest).find? (fun d => d.duration == m)).isSome := by
    rw [List.find?_isSome]
    obtain ⟨e, he, hde⟩ := hex
    exact ⟨e, he, by simp [hde]⟩
  obtain ⟨d, hd⟩ := Option.isSome_iff_exists.1 hfind
  obtain ⟨hpd, l1, l2, hsplit, hall⟩ := find?_first _ _ _ hd
  refine ⟨m, d.name, ?_, hub, l1, d, l2, hsplit, by simpa using hpd, rfl, ?_⟩
  · rw [get_max_duration]
    have hmd : maxDur? (c :: rest) = some m := rfl
    simp only [hmd]
    simp only [hd]
  · intro e he
    have := hall e he
    simpa using this

theorem max_duration_spec_witness :
    get_max_duration [⟨1, "A", none, 2, 10⟩, ⟨2, "B", none, 3, 20⟩]
      = some (20, "B") :=
  (max_duration_spec [⟨1, "A", none, 2, 10⟩, ⟨2, "B", none, 3, 20⟩]
    (by decide)).2.2
